import Mathlib

/-!
# Verification of the upload-wizard / ETL file-manager core

Shallow embedding of the frontend hooks `useFileManager` and `useUploadWizard`
(files `src/frontend/src/hooks/useFileManager.ts` and
`src/frontend/src/hooks/useUploadWizard.ts`) together with the data model of
`src/frontend/src/lib/api.ts`.

Modelling conventions:
* JS string-literal unions are modelled as `String` (the source switches on
  raw strings and has default cases for unlisted values).
* `Record<string, T>` objects are modelled as association lists
  `List (String × T)`; the spread update `{ ...m, [k]: v }` replaces the
  entry for `k`.
* The `monitoringJobsRef` `Set<string>` is a `List String` without duplicate
  semantics being relied upon; `Set.delete` is a filter.
* Asynchronous remote calls are modelled by passing the call's outcome
  (`Except String α`) as an explicit argument to the state-transition
  function; the number of network calls a transition performs is returned
  explicitly so "no network call" is provable.
* `setTimeout(f, ms)` scheduling is modelled by appending the scheduled
  poll's job id and delay to a `scheduled` list.
-/

/-- Model of `ValidationResult.issues[i]` from `api.ts`. -/
structure ValidationIssue where
  type : String
  message : String
  column : Option String
  row_number : Option Nat
  deriving Repr, DecidableEq

/-- Model of `ValidationResult` from `api.ts`. -/
structure ValidationResult where
  is_valid : Bool
  total_records : Nat
  issues : List ValidationIssue
  deriving Repr, DecidableEq

/-- Model of `ETLJob` from `api.ts`.  `status` ranges over
`pending | processing | completed | failed | cancelled` in the TS type, but
the code switches on the raw string with a default case, so it is a `String`
here. -/
structure ETLJob where
  job_id : String
  filename : String
  status : String
  progress : Nat
  created_at : String
  started_at : Option String
  completed_at : Option String
  error_message : Option String
  total_records_processed : Nat
  successful_records : Nat
  failed_records : Nat
  validation_result : Option ValidationResult
  deriving Repr, DecidableEq

/-- Model of `SheetInfo` from `api.ts`.  The opaque preview field
`sample_data?: Record<string, unknown>[]` is never read by any modelled
operation and is not represented. -/
structure SheetInfo where
  sheet_name : String
  row_count : Nat
  column_count : Nat
  columns : List String
  validation_status : String
  validation_result : Option ValidationResult
  etl_status : String
  etl_job_id : Option String
  loaded_at : Option String
  deriving Repr, DecidableEq

/-- Model of `UploadedFile` from `api.ts`. -/
structure UploadedFile where
  file_id : String
  filename : String
  original_filename : String
  country : String
  file_size : Nat
  upload_date : String
  sheets : List SheetInfo
  status : String
  deriving Repr, DecidableEq

/-- Model of `FileManagerState` from `useFileManager.ts`.  `etlJobs` is the
`Record<string, ETLJob>` keyed by job id. -/
structure FileManagerState where
  files : List UploadedFile
  etlJobs : List (String × ETLJob)
  isLoading : Bool
  error : Option String
  deriving Repr, DecidableEq

/-- The `monitoringJobsRef` dedup set together with the queue of
`setTimeout`-scheduled `pollJob` invocations (job id, delay in ms). -/
structure MonitorState where
  monitoring : List String
  scheduled : List (String × Nat)
  deriving Repr, DecidableEq

/-- The spread update `{ ...jobs, [k]: v }` on the `etlJobs` record: the
binding for `k` is replaced (or added). -/
def recordSet (r : List (String × ETLJob)) (k : String) (v : ETLJob) :
    List (String × ETLJob) :=
  (r.filter (fun p => p.1 != k)) ++ [(k, v)]

/-- Model of `setError` from `useFileManager.ts`: sets `error` and clears
`isLoading`. -/
def FileManagerState.setError (s : FileManagerState) (e : Option String) :
    FileManagerState :=
  { s with error := e, isLoading := false }

/-- The lookup
`state.files.find(f => f.file_id === fileId)?.sheets.find(s => s.sheet_name === sheetName)`
shared by `processSheet`, `getSheetEtlStatus` and `getSheetETLJob`. -/
def lookupSheet (s : FileManagerState) (fileId sheetName : String) :
    Option SheetInfo :=
  (s.files.find? (fun f => f.file_id == fileId)).bind
    (fun f => f.sheets.find? (fun sh => sh.sheet_name == sheetName))

/-- The guard condition `sheet?.etl_status === 'loaded'` of `processSheet`
(`useFileManager.ts` line 71). -/
def sheetIsLoaded (s : FileManagerState) (fileId sheetName : String) : Bool :=
  match lookupSheet s fileId sheetName with
  | some sh => sh.etl_status == "loaded"
  | none => false

/-- Model of `getSheetEtlStatus` (`useFileManager.ts` lines 254-258):
`sheet?.etl_status || 'not_loaded'`.  JS `||` also replaces the falsy empty
string, which the model mirrors. -/
def getSheetEtlStatus (s : FileManagerState) (fileId sheetName : String) :
    String :=
  match lookupSheet s fileId sheetName with
  | some sh => if sh.etl_status == "" then "not_loaded" else sh.etl_status
  | none => "not_loaded"

/-- Model of `canProcessSheet` (`useFileManager.ts` lines 269-272). -/
def canProcessSheet (s : FileManagerState) (fileId sheetName : String) :
    Bool :=
  let status := getSheetEtlStatus s fileId sheetName
  status == "not_loaded" || status == "failed"

/-- The functional file-list update used throughout `useFileManager.ts`:
map over files, and on the file with `file_id === fileId` map over its
sheets, replacing the sheet with `sheet_name === sheetName` by `g sheet`. -/
def updateSheetIn (files : List UploadedFile) (fileId sheetName : String)
    (g : SheetInfo → SheetInfo) : List UploadedFile :=
  files.map (fun file =>
    if file.file_id == fileId then
      { file with
        sheets := file.sheets.map (fun sh =>
          if sh.sheet_name == sheetName then g sh else sh) }
    else file)

/-- Model of `startJobMonitoring` (`useFileManager.ts` lines 157-226): a no-op when
the job id is already in the dedup set, otherwise adds it and schedules the
first `pollJob` after 1000 ms. -/
def startJobMonitoring (mon : MonitorState) (jobId : String) : MonitorState :=
  if mon.monitoring.contains jobId then
    mon
  else
    { monitoring := mon.monitoring ++ [jobId],
      scheduled := mon.scheduled ++ [(jobId, 1000)] }

/-- Outcome of one `processSheet` call: resulting state, resulting monitor
state, how many network calls were issued, and the returned value. -/
structure ProcessOutcome where
  state : FileManagerState
  monitor : MonitorState
  networkCalls : Nat
  ret : Option ETLJob
  deriving Repr, DecidableEq

/-- Model of `processSheet` (`useFileManager.ts` lines 65-154).  `remote` is the
outcome of the awaited `etlApi.processSheet` call; it is consulted (and a
network call counted) only when the already-loaded guard does not fire. -/
def processSheet (s : FileManagerState) (mon : MonitorState)
    (fileId sheetName : String) (remote : Except String ETLJob) :
    ProcessOutcome :=
  if sheetIsLoaded s fileId sheetName then
    { state := s.setError (some ("Sheet \"" ++ sheetName ++ "\" 已經載入過了")),
      monitor := mon, networkCalls := 0, ret := none }
  else
    -- optimistic update: sheet `etl_status := 'loading'`
    let files1 := updateSheetIn s.files fileId sheetName (fun sh => { sh with etl_status := "loading" })
    let s1 : FileManagerState := { s with files := files1 }
    match remote with
    | .ok etlJob =>
        let files2 := updateSheetIn s1.files fileId sheetName (fun sh => { sh with etl_status := "loading", etl_job_id := some etlJob.job_id })
        let s2 : FileManagerState :=
          { s1 with
            etlJobs := recordSet s1.etlJobs etlJob.job_id etlJob,
            files := files2 }
        { state := s2, monitor := startJobMonitoring mon etlJob.job_id,
          networkCalls := 1, ret := some etlJob }
    | .error msg =>
        -- rollback: sheet `etl_status := 'failed'`, then `setError`
        let files3 := updateSheetIn s1.files fileId sheetName (fun sh => { sh with etl_status := "failed" })
        let s3 : FileManagerState := { s1 with files := files3 }
        { state := s3.setError (some msg), monitor := mon,
          networkCalls := 1, ret := none }

/-- The status-mapping switch inside `pollJob` (`useFileManager.ts`
lines 180-196): remote job status to new local sheet `etl_status`, keeping
the prior status for any unlisted value. -/
def mapJobStatus (remoteStatus prevEtlStatus : String) : String :=
  if remoteStatus == "completed" then "loaded"
  else if remoteStatus == "failed" then "failed"
  else if remoteStatus == "cancelled" then "failed"
  else if remoteStatus == "processing" then "loading"
  else if remoteStatus == "pending" then "loading"
  else prevEtlStatus

/-- The `setState` update in `pollJob`'s success branch (`useFileManager.ts`
lines 168-210): cache the job under its id and rewrite the targeted sheet's
`etl_status` (and `loaded_at`). -/
def pollJobUpdate (s : FileManagerState) (fileId sheetName jobId : String)
    (job : ETLJob) : FileManagerState :=
  let files1 := updateSheetIn s.files fileId sheetName (fun sh => { sh with etl_status := mapJobStatus job.status sh.etl_status, loaded_at := job.completed_at })
  { s with
    etlJobs := recordSet s.etlJobs jobId job,
    files := files1 }

/-- Model of `activeStatuses` (`useFileManager.ts` line 213). -/
def activeStatuses : List String := ["pending", "processing", "validating", "loading"]

/-- One iteration of `pollJob` (`useFileManager.ts` lines 164-222).
`fetch` is the outcome of the awaited `etlApi.getJob` call.  On success the
state is updated and, if the remote status is still active, another poll is
scheduled after 2000 ms; otherwise the job id is deleted from the dedup set.
On fetch failure the job id is deleted from the dedup set and nothing else
happens. -/
def pollJobStep (s : FileManagerState) (mon : MonitorState)
    (fileId sheetName jobId : String) (fetch : Except String ETLJob) :
    FileManagerState × MonitorState :=
  match fetch with
  | .ok job =>
      let s1 := pollJobUpdate s fileId sheetName jobId job
      if activeStatuses.contains job.status then
        (s1, { mon with scheduled := mon.scheduled ++ [(jobId, 2000)] })
      else
        (s1, { mon with monitoring := mon.monitoring.filter (fun j => j != jobId) })
  | .error _ =>
      (s, { mon with monitoring := mon.monitoring.filter (fun j => j != jobId) })

/-- Number of scheduled `pollJob` invocations for a given job id. -/
def MonitorState.scheduledCount (mon : MonitorState) (j : String) : Nat :=
  (mon.scheduled.filter (fun e => e.1 == j)).length

/-!
## Upload wizard (`useUploadWizard.ts`)
-/

/-- A browser `File` handle: only identity matters to the wizard. -/
structure LocalFile where
  name : String
  size : Nat
  deriving Repr, DecidableEq

/-- One entry of `WIZARD_STEPS`. -/
structure WizardStep where
  id : String
  title : String
  description : String
  deriving Repr, DecidableEq

/-- Model of `WIZARD_STEPS` (`useUploadWizard.ts` lines 23-29). -/
def WIZARD_STEPS : List WizardStep :=
  [{ id := "country", title := "選擇國家", description := "選擇資料來源國家" },
   { id := "file", title := "選擇檔案", description := "選擇要上傳的 Excel 檔案" },
   { id := "upload", title := "上傳分析", description := "上傳檔案並分析工作表" },
   { id := "sheets", title := "選擇工作表", description := "選擇要處理的工作表" },
   { id := "confirm", title := "驗證完成", description := "驗證資料並完成上傳" }]

/-- Model of `WizardState` (`useUploadWizard.ts` lines 10-21).  `currentStep` is an
`Int` because the source manipulates it with `Math.min`/`Math.max` on JS
numbers. -/
structure WizardState where
  currentStep : Int
  completedSteps : List Int
  selectedCountry : String
  selectedFile : Option LocalFile
  uploadedFile : Option UploadedFile
  selectedSheets : List String
  validationResults : List (String × ValidationResult)
  targetDate : String
  isLoading : Bool
  error : Option String
  deriving Repr, DecidableEq

/-- Model of `nextStep` (`useUploadWizard.ts` lines 53-65):
`currentStep := Math.min(currentStep + 1, WIZARD_STEPS.length - 1)`,
`completedSteps := [...new Set([...completedSteps, currentStep])]`
(first-occurrence dedup, matching JS `Set` insertion order), `error` cleared. -/
def nextStep (s : WizardState) : WizardState :=
  { s with
    currentStep := min (s.currentStep + 1) ((WIZARD_STEPS.length : Int) - 1),
    completedSteps := (s.completedSteps ++ [s.currentStep]).eraseDups,
    error := none }

/-- Model of `prevStep` (`useUploadWizard.ts` lines 67-73):
`currentStep := Math.max(currentStep - 1, 0)`, `error` cleared. -/
def prevStep (s : WizardState) : WizardState :=
  { s with currentStep := max (s.currentStep - 1) 0, error := none }

/-- Model of `goToStep` (`useUploadWizard.ts` lines 75-83): jump to `stepIndex` when
`0 <= stepIndex < WIZARD_STEPS.length`, clearing `error`; otherwise a no-op. -/
def goToStep (s : WizardState) (stepIndex : Int) : WizardState :=
  if 0 ≤ stepIndex ∧ stepIndex < (WIZARD_STEPS.length : Int) then
    { s with currentStep := stepIndex, error := none }
  else s

/-- Model of `selectCountry` (`useUploadWizard.ts` lines 86-88). -/
def selectCountry (s : WizardState) (country : String) : WizardState :=
  { s with selectedCountry := country }

/-- Model of `selectFile` (`useUploadWizard.ts` lines 91-99): sets `selectedFile` and
unconditionally resets `uploadedFile`, `selectedSheets`, `validationResults`. -/
def selectFile (s : WizardState) (file : Option LocalFile) : WizardState :=
  { s with
    selectedFile := file,
    uploadedFile := none,
    selectedSheets := [],
    validationResults := [] }

/-- Model of `toggleSheet` (`useUploadWizard.ts` lines 188-197): remove the name if
selected, else append it. -/
def toggleSheet (s : WizardState) (sheetName : String) : WizardState :=
  let isSelected := s.selectedSheets.contains sheetName
  let newSelectedSheets :=
    if isSelected then s.selectedSheets.filter (fun name => name != sheetName)
    else s.selectedSheets ++ [sheetName]
  { s with selectedSheets := newSelectedSheets }

/-- Model of `canGoNext` (`useUploadWizard.ts` lines 294-309).  JS truthiness:
`!!selectedCountry` is false exactly on the empty string, `!!selectedFile`
exactly on `null`. -/
def canGoNext (s : WizardState) : Bool :=
  if s.currentStep == 0 then s.selectedCountry != ""
  else if s.currentStep == 1 then s.selectedFile.isSome
  else if s.currentStep == 2 then false
  else if s.currentStep == 3 then decide (s.selectedSheets.length > 0)
  else if s.currentStep == 4 then true
  else false

/-!
## Helper lemmas and sample states
-/

theorem contains_filter_ne_self (l : List String) (a : String) :
    (l.filter (fun x => x != a)).contains a = false := by
  simp

theorem contains_filter_ne (l : List String) (a m : String) (h : m ≠ a) :
    (l.filter (fun x => x != a)).contains m = l.contains m := by
  simp [h]

theorem filter_ne_of_not_contains (l : List String) (a : String)
    (h : l.contains a = false) : l.filter (fun x => x != a) = l := by
  simp at h
  exact List.filter_eq_self.mpr (by intro x hx; simp; intro e; exact h (e ▸ hx))

theorem contains_append_singleton (l : List String) (a m : String) :
    (l ++ [a]).contains m = (l.contains m || m == a) := by
  cases hc : l.contains m <;> cases he : (m == a) <;> simp_all

/-- A `find?` over a conditionally-rewritten list: when the rewrite `u`
preserves the search predicate, searching the rewritten list finds the
rewritten first match. -/
theorem find?_map_ite {α : Type} (l : List α) (p : α → Bool) (u : α → α)
    (hu : ∀ a, p (u a) = p a) :
    (l.map (fun a => if p a then u a else a)).find? p = (l.find? p).map u := by
  induction l with
  | nil => rfl
  | cons x xs ih =>
    by_cases h : p x
    · simp [List.find?_cons, h, hu x]
    · simp only [List.map_cons]
      rw [if_neg h, List.find?_cons_of_neg _ (by simp [h]),
          List.find?_cons_of_neg _ (by simp [h]), ih]

/-- Sample worksheet with the given `etl_status`. -/
def sampleSheet (status : String) : SheetInfo :=
  { sheet_name := "Sheet1", row_count := 100, column_count := 5,
    columns := ["sku", "qty"], validation_status := "pending",
    validation_result := none, etl_status := status, etl_job_id := none,
    loaded_at := none }

/-- Sample uploaded file whose single worksheet has the given `etl_status`. -/
def sampleFile (status : String) : UploadedFile :=
  { file_id := "f1", filename := "inv.xlsx", original_filename := "inv.xlsx",
    country := "TW", file_size := 2048, upload_date := "2025-07-01",
    sheets := [sampleSheet status], status := "ready" }

/-- Sample file-manager state holding one file with one worksheet. -/
def sampleFM (status : String) : FileManagerState :=
  { files := [sampleFile status], etlJobs := [], isLoading := false,
    error := none }

/-- Empty monitor state. -/
def monEmpty : MonitorState := { monitoring := [], scheduled := [] }

/-- Sample remote job with the given status. -/
def sampleJob (status : String) : ETLJob :=
  { job_id := "j1", filename := "inv.xlsx", status := status, progress := 50,
    created_at := "2025-07-01", started_at := none, completed_at := none,
    error_message := none, total_records_processed := 0,
    successful_records := 0, failed_records := 0, validation_result := none }

/-- Sample wizard state sitting at step `k`. -/
def wizardAtStep (k : Int) : WizardState :=
  { currentStep := k, completedSteps := [], selectedCountry := "TW",
    selectedFile := none, uploadedFile := none, selectedSheets := [],
    validationResults := [], targetDate := "2025-07-01", isLoading := false,
    error := none }

/-!
## Claim theorems
-/

/-- C1: for every file-manager state and every sheet whose `etl_status` is
`loaded`, calling `processSheet` on that file/sheet performs no network call
and leaves the `files` and `etlJobs` state unchanged; only a local error
string is set and the call returns null. -/
theorem processSheet_loaded_noop (s : FileManagerState) (mon : MonitorState)
    (fileId sheetName : String) (remote : Except String ETLJob)
    (h : sheetIsLoaded s fileId sheetName = true) :
    (processSheet s mon fileId sheetName remote).networkCalls = 0 ∧
    (processSheet s mon fileId sheetName remote).state.files = s.files ∧
    (processSheet s mon fileId sheetName remote).state.etlJobs = s.etlJobs ∧
    (processSheet s mon fileId sheetName remote).state.error
      = some ("Sheet \"" ++ sheetName ++ "\" 已經載入過了") ∧
    (processSheet s mon fileId sheetName remote).ret = none ∧
    (processSheet s mon fileId sheetName remote).monitor = mon := by
  simp [processSheet, h, FileManagerState.setError]

/-- Witness for C1: a concrete state with one already-loaded sheet. -/
theorem processSheet_loaded_noop_witness :
    (processSheet (sampleFM "loaded") monEmpty "f1" "Sheet1"
      (.error "boom")).networkCalls = 0 ∧
    (processSheet (sampleFM "loaded") monEmpty "f1" "Sheet1"
      (.error "boom")).ret = none :=
  ⟨(processSheet_loaded_noop (sampleFM "loaded") monEmpty "f1" "Sheet1"
      (.error "boom") rfl).1,
   (processSheet_loaded_noop (sampleFM "loaded") monEmpty "f1" "Sheet1"
      (.error "boom") rfl).2.2.2.2.1⟩

/-- C3: for every wizard state, `canGoNext` returns: at step 0, true iff
`selectedCountry` is non-empty; at step 1, true iff `selectedFile` is
non-null; at step 2, false always; at step 3, true iff `selectedSheets` is
non-empty; at step 4, true. -/
theorem canGoNext_step_gating (s : WizardState) :
    (s.currentStep = 0 → (canGoNext s = true ↔ s.selectedCountry ≠ "")) ∧
    (s.currentStep = 1 → (canGoNext s = true ↔ s.selectedFile ≠ none)) ∧
    (s.currentStep = 2 → canGoNext s = false) ∧
    (s.currentStep = 3 → (canGoNext s = true ↔ s.selectedSheets ≠ [])) ∧
    (s.currentStep = 4 → canGoNext s = true) := by
  refine ⟨fun h => ?_, fun h => ?_, fun h => ?_, fun h => ?_, fun h => ?_⟩ <;>
    simp [canGoNext, h, Option.isSome_iff_ne_none, List.length_pos]

/-- Witness for C3: `canGoNext` evaluated at concrete states sitting at
steps 0, 2 and 4. -/
theorem canGoNext_step_gating_witness :
    canGoNext (wizardAtStep 0) = true ∧
    canGoNext (wizardAtStep 2) = false ∧
    canGoNext (wizardAtStep 4) = true :=
  ⟨((canGoNext_step_gating (wizardAtStep 0)).1 rfl).mpr (by decide),
   (canGoNext_step_gating (wizardAtStep 2)).2.2.1 rfl,
   (canGoNext_step_gating (wizardAtStep 4)).2.2.2.2 rfl⟩

/-- C7: for every wizard state and every argument value (including null),
`selectFile` sets `selectedFile` to that value and unconditionally resets
`uploadedFile` to null, `selectedSheets` to the empty list, and
`validationResults` to the empty map; every other field is untouched. -/
theorem selectFile_dependent_invalidation (s : WizardState)
    (file : Option LocalFile) :
    (selectFile s file).selectedFile = file ∧
    (selectFile s file).uploadedFile = none ∧
    (selectFile s file).selectedSheets = [] ∧
    (selectFile s file).validationResults = [] ∧
    (selectFile s file).currentStep = s.currentStep ∧
    (selectFile s file).completedSteps = s.completedSteps ∧
    (selectFile s file).selectedCountry = s.selectedCountry ∧
    (selectFile s file).targetDate = s.targetDate ∧
    (selectFile s file).isLoading = s.isLoading ∧
    (selectFile s file).error = s.error :=
  ⟨rfl, rfl, rfl, rfl, rfl, rfl, rfl, rfl, rfl, rfl⟩

/-- C4: at most one poll loop is active per job id: calling
`startJobMonitoring` with a job id already present in the monitoring set is
a no-op (it schedules no new poll), so starting monitoring twice for the
same job id results in exactly one scheduled poll loop. -/
theorem startJobMonitoring_dedup (mon : MonitorState) (j : String) :
    (mon.monitoring.contains j = true → startJobMonitoring mon j = mon) ∧
    (mon.monitoring.contains j = false →
      startJobMonitoring (startJobMonitoring mon j) j
        = startJobMonitoring mon j ∧
      (startJobMonitoring (startJobMonitoring mon j) j).scheduledCount j
        = mon.scheduledCount j + 1) := by
  constructor
  · intro h
    have h' : j ∈ mon.monitoring := by simpa using h
    simp [startJobMonitoring, h']
  · intro h
    have h' : j ∉ mon.monitoring := by simpa using h
    have e1 : startJobMonitoring mon j =
        { monitoring := mon.monitoring ++ [j],
          scheduled := mon.scheduled ++ [(j, 1000)] } := by
      simp [startJobMonitoring, h']
    have h1 : j ∈ mon.monitoring ++ [j] := by simp
    have e2 : startJobMonitoring (startJobMonitoring mon j) j
        = startJobMonitoring mon j := by
      rw [e1]
      simp [startJobMonitoring, h1]
    refine ⟨e2, ?_⟩
    rw [e2, e1]
    simp [MonitorState.scheduledCount]

/-- Witness for C4: starting monitoring twice for `j1` from an empty
monitor schedules exactly one poll; starting it when `j1` is already
monitored is a no-op. -/
theorem startJobMonitoring_dedup_witness :
    startJobMonitoring { monitoring := ["j1"], scheduled := [] } "j1"
      = { monitoring := ["j1"], scheduled := [] } ∧
    (startJobMonitoring (startJobMonitoring monEmpty "j1") "j1").scheduledCount "j1"
      = 1 :=
  ⟨(startJobMonitoring_dedup { monitoring := ["j1"], scheduled := [] } "j1").1 rfl,
   by
     have h := (startJobMonitoring_dedup monEmpty "j1").2 rfl
     rw [h.2]
     rfl⟩

/-- C5: after each successful status fetch, the poll loop reschedules
another poll after the fixed 2-second interval iff the fetched remote
status is one of `{pending, processing, validating, loading}`; for any
other status it removes the job id from the deduplication set and schedules
no further poll. -/
theorem pollJob_reschedule_iff_active (s : FileManagerState)
    (mon : MonitorState) (fileId sheetName jobId : String) (job : ETLJob) :
    (activeStatuses.contains job.status = true →
      (pollJobStep s mon fileId sheetName jobId (.ok job)).2.scheduled
        = mon.scheduled ++ [(jobId, 2000)] ∧
      (pollJobStep s mon fileId sheetName jobId (.ok job)).2.monitoring
        = mon.monitoring) ∧
    (activeStatuses.contains job.status = false →
      (pollJobStep s mon fileId sheetName jobId (.ok job)).2.scheduled
        = mon.scheduled ∧
      (pollJobStep s mon fileId sheetName jobId (.ok job)).2.monitoring
        = mon.monitoring.filter (fun x => x != jobId) ∧
      (pollJobStep s mon fileId sheetName jobId
        (.ok job)).2.monitoring.contains jobId = false) := by
  constructor
  · intro h
    have h' : job.status ∈ activeStatuses := by simpa using h
    simp [pollJobStep, h']
  · intro h
    have h' : job.status ∉ activeStatuses := by simpa using h
    simp [pollJobStep, h', contains_filter_ne_self]

/-- Witness for C5: a still-`processing` job reschedules a 2000 ms poll; a
`completed` job removes `j1` from the dedup set. -/
theorem pollJob_reschedule_iff_active_witness :
    (pollJobStep (sampleFM "loading") monEmpty "f1" "Sheet1" "j1"
      (.ok (sampleJob "processing"))).2.scheduled = [("j1", 2000)] ∧
    (pollJobStep (sampleFM "loading") { monitoring := ["j1"], scheduled := [] }
      "f1" "Sheet1" "j1"
      (.ok (sampleJob "completed"))).2.monitoring.contains "j1" = false := by
  constructor
  · have h := (pollJob_reschedule_iff_active (sampleFM "loading") monEmpty
      "f1" "Sheet1" "j1" (sampleJob "processing")).1 rfl
    rw [h.1]
    rfl
  · exact ((pollJob_reschedule_iff_active (sampleFM "loading")
      { monitoring := ["j1"], scheduled := [] } "f1" "Sheet1" "j1"
      (sampleJob "completed")).2 rfl).2.2

/-- C6: if a mid-poll status fetch rejects, the poll loop terminates
silently: the job id is removed from the deduplication set, no error string
is set, and the `files` and `etlJobs` state keep their last known values
(indeed the whole manager state is untouched), and no further poll is
scheduled. -/
theorem pollJob_fetch_error_silent (s : FileManagerState) (mon : MonitorState)
    (fileId sheetName jobId : String) (msg : String) :
    (pollJobStep s mon fileId sheetName jobId (.error msg)).1 = s ∧
    (pollJobStep s mon fileId sheetName jobId (.error msg)).1.files = s.files ∧
    (pollJobStep s mon fileId sheetName jobId (.error msg)).1.etlJobs
      = s.etlJobs ∧
    (pollJobStep s mon fileId sheetName jobId (.error msg)).1.error
      = s.error ∧
    (pollJobStep s mon fileId sheetName jobId (.error msg)).2.monitoring
      = mon.monitoring.filter (fun x => x != jobId) ∧
    (pollJobStep s mon fileId sheetName jobId
      (.error msg)).2.monitoring.contains jobId = false ∧
    (pollJobStep s mon fileId sheetName jobId (.error msg)).2.scheduled
      = mon.scheduled := by
  refine ⟨rfl, rfl, rfl, rfl, rfl, ?_, rfl⟩
  exact contains_filter_ne_self mon.monitoring jobId

/-- Mapping a list with a function that preserves the search predicate
commutes with `find?`. -/
theorem find?_map_pres {α : Type} (l : List α) (p : α → Bool) (G : α → α)
    (hG : ∀ a, p (G a) = p a) :
    (l.map G).find? p = (l.find? p).map G := by
  induction l with
  | nil => rfl
  | cons x xs ih =>
    cases hx : p x with
    | true =>
      rw [List.map_cons, List.find?_cons_of_pos _ (by rw [hG x]; exact hx),
          List.find?_cons_of_pos _ hx, Option.map_some']
    | false =>
      rw [List.map_cons, List.find?_cons_of_neg _ (by simp [hG x, hx]),
          List.find?_cons_of_neg _ (by simp [hx]), ih]

/-- Searching the file list after `updateSheetIn` finds the rewritten sheet. -/
theorem find?_updateSheetIn (files : List UploadedFile) (fid sn : String)
    (g : SheetInfo → SheetInfo) (hg : ∀ sh, (g sh).sheet_name = sh.sheet_name) :
    ((updateSheetIn files fid sn g).find? (fun f => f.file_id == fid)).bind
        (fun f => f.sheets.find? (fun sh => sh.sheet_name == sn))
      = ((files.find? (fun f => f.file_id == fid)).bind
          (fun f => f.sheets.find? (fun sh => sh.sheet_name == sn))).map g := by
  unfold updateSheetIn
  rw [find?_map_pres files (fun f => f.file_id == fid)
      (fun file => if file.file_id == fid then
          { file with sheets := file.sheets.map (fun sh => if sh.sheet_name == sn then g sh else sh) }
        else file)
      (fun a => by by_cases h : (a.file_id == fid) = true <;> simp [h])]
  cases hf : files.find? (fun f => f.file_id == fid) with
  | none => rfl
  | some f =>
    have hpf := List.find?_some hf
    simp only [Option.map_some', Option.some_bind, if_pos hpf]
    rw [find?_map_ite f.sheets (fun sh => sh.sheet_name == sn) g
        (fun sh => by simp [hg])]

/-- Effect of `pollJob`'s success-branch state update on the targeted
sheet lookup. -/
theorem lookupSheet_pollJobUpdate (s : FileManagerState)
    (fid sn jid : String) (job : ETLJob) :
    lookupSheet (pollJobUpdate s fid sn jid job) fid sn
      = (lookupSheet s fid sn).map (fun sh =>
          { sh with etl_status := mapJobStatus job.status sh.etl_status,
                    loaded_at := job.completed_at }) :=
  find?_updateSheetIn s.files fid sn _ (fun _ => rfl)

/-- The `processSheet` guard fires exactly when the lookup finds the sheet
and its status is `loaded`. -/
theorem sheetIsLoaded_iff (s : FileManagerState) (fid sn : String) :
    sheetIsLoaded s fid sn = true ↔
      ∃ sh, lookupSheet s fid sn = some sh ∧ sh.etl_status = "loaded" := by
  unfold sheetIsLoaded
  cases h : lookupSheet s fid sn with
  | none => simp
  | some sh => simp [h]

/-- Number of network calls `processSheet` issues, as a function of the
guard. -/
theorem processSheet_networkCalls (s : FileManagerState) (mon : MonitorState)
    (fid sn : String) (remote : Except String ETLJob) :
    (processSheet s mon fid sn remote).networkCalls
      = if sheetIsLoaded s fid sn then 0 else 1 := by
  by_cases hg : sheetIsLoaded s fid sn
  · simp [processSheet, hg]
  · cases remote <;> simp [processSheet, hg]

/-- One `toggleSheet` on the selected-sheet list, at list level. -/
def toggleNames (l : List String) (n : String) : List String :=
  if l.contains n then l.filter (fun x => x != n) else l ++ [n]

theorem toggleSheet_selectedSheets (s : WizardState) (n : String) :
    (toggleSheet s n).selectedSheets = toggleNames s.selectedSheets n := rfl

theorem toggleNames_of_mem (l : List String) (n : String)
    (h : l.contains n = true) :
    toggleNames l n = l.filter (fun x => x != n) := by
  unfold toggleNames
  rw [h]
  simp

theorem toggleNames_of_not_mem (l : List String) (n : String)
    (h : l.contains n = false) : toggleNames l n = l ++ [n] := by
  unfold toggleNames
  rw [h]
  simp

theorem toggleNames_contains_self (l : List String) (n : String) :
    (toggleNames l n).contains n = !(l.contains n) := by
  cases hc : l.contains n with
  | true => rw [toggleNames_of_mem l n hc, contains_filter_ne_self]; rfl
  | false =>
    rw [toggleNames_of_not_mem l n hc, contains_append_singleton, hc]
    simp

theorem toggleNames_contains_other (l : List String) (n m : String)
    (h : m ≠ n) : (toggleNames l n).contains m = l.contains m := by
  cases hc : l.contains n with
  | true => rw [toggleNames_of_mem l n hc, contains_filter_ne l n m h]
  | false =>
    rw [toggleNames_of_not_mem l n hc, contains_append_singleton]
    simp [h]

theorem toggleNames_twice (l : List String) (n m : String) :
    (toggleNames (toggleNames l n) n).contains m = l.contains m := by
  cases hc : l.contains n with
  | true =>
    rw [toggleNames_of_mem l n hc,
        toggleNames_of_not_mem _ n (contains_filter_ne_self l n)]
    by_cases hm : m = n
    · subst hm
      rw [contains_append_singleton, contains_filter_ne_self, hc]
      simp
    · rw [contains_append_singleton, contains_filter_ne l n m hm]
      simp [hm]
  | false =>
    rw [toggleNames_of_not_mem l n hc]
    have h2 : (l ++ [n]).contains n = true := by simp
    rw [toggleNames_of_mem _ n h2, List.filter_append,
        filter_ne_of_not_contains l n hc]
    have h3 : List.filter (fun x => x != n) [n] = [] := by simp
    rw [h3, List.append_nil]

/-- C2: for every poll step that successfully fetches a remote job status,
the targeted sheet's local `etl_status` is updated exactly per the fixed
table: `completed` maps to `loaded`, `failed` and `cancelled` map to
`failed`, `processing` and `pending` map to `loading`, and any other status
value leaves the sheet's prior `etl_status` unchanged. -/
theorem pollJob_status_mapping (s : FileManagerState) (mon : MonitorState)
    (fid sn jid : String) (job : ETLJob) (sh : SheetInfo)
    (h : lookupSheet s fid sn = some sh) :
    (pollJobStep s mon fid sn jid (.ok job)).1
      = pollJobUpdate s fid sn jid job ∧
    lookupSheet (pollJobUpdate s fid sn jid job) fid sn
      = some { sh with etl_status := mapJobStatus job.status sh.etl_status,
                       loaded_at := job.completed_at } ∧
    mapJobStatus "completed" sh.etl_status = "loaded" ∧
    mapJobStatus "failed" sh.etl_status = "failed" ∧
    mapJobStatus "cancelled" sh.etl_status = "failed" ∧
    mapJobStatus "processing" sh.etl_status = "loading" ∧
    mapJobStatus "pending" sh.etl_status = "loading" ∧
    (job.status ∉ (["completed", "failed", "cancelled", "processing",
        "pending"] : List String) →
      mapJobStatus job.status sh.etl_status = sh.etl_status) := by
  refine ⟨?_, ?_, rfl, rfl, rfl, rfl, rfl, ?_⟩
  · by_cases hc : job.status ∈ activeStatuses <;> simp [pollJobStep, hc]
  · rw [lookupSheet_pollJobUpdate, h]
    rfl
  · intro hmem
    simp only [List.mem_cons, not_or] at hmem
    obtain ⟨h1, h2, h3, h4, h5, -⟩ := hmem
    simp [mapJobStatus, h1, h2, h3, h4, h5]

/-- Witness for C2: a `completed` fetch flips the concrete `loading` sheet
to `loaded`. -/
theorem pollJob_status_mapping_witness :
    lookupSheet (pollJobUpdate (sampleFM "loading") "f1" "Sheet1" "j1"
        (sampleJob "completed")) "f1" "Sheet1"
      = some { sampleSheet "loading" with etl_status := "loaded", loaded_at := none } := by
  have h := (pollJob_status_mapping (sampleFM "loading") monEmpty
    "f1" "Sheet1" "j1" (sampleJob "completed") (sampleSheet "loading")
    rfl).2.1
  rw [h]
  rfl

/-- C8 counterexample: the claim says the current step index "is movable
only by ±1 per explicit navigation operation, with no skipping", but
`goToStep` is an explicit navigation operation that moves `currentStep`
from 0 directly to 3. -/
theorem goToStep_skips_counterexample :
    (wizardAtStep 0).currentStep = 0 ∧
    (goToStep (wizardAtStep 0) 3).currentStep = 3 :=
  ⟨rfl, rfl⟩

/-- C8 (amended): for every wizard state with `currentStep` in 0..4, every
navigation operation keeps it within 0..4; `nextStep` and `prevStep` move
it by at most one step (clamped at the ends), while `goToStep` may set it
to any index within 0..4, including jumps of more than one. -/
theorem currentStep_bounded_navigation (s : WizardState)
    (h0 : 0 ≤ s.currentStep) (h4 : s.currentStep ≤ 4) :
    (0 ≤ (nextStep s).currentStep ∧ (nextStep s).currentStep ≤ 4) ∧
    ((nextStep s).currentStep = s.currentStep + 1 ∨
      (nextStep s).currentStep = s.currentStep) ∧
    (0 ≤ (prevStep s).currentStep ∧ (prevStep s).currentStep ≤ 4) ∧
    ((prevStep s).currentStep = s.currentStep - 1 ∨
      (prevStep s).currentStep = s.currentStep) ∧
    (∀ i : Int, 0 ≤ (goToStep s i).currentStep ∧
      (goToStep s i).currentStep ≤ 4) := by
  have hnext : (nextStep s).currentStep = min (s.currentStep + 1) 4 := rfl
  have hprev : (prevStep s).currentStep = max (s.currentStep - 1) 0 := rfl
  refine ⟨?_, ?_, ?_, ?_, ?_⟩
  · rw [hnext]
    constructor
    · exact le_min (by omega) (by omega)
    · exact min_le_right _ _
  · rw [hnext]
    rcases le_or_lt (s.currentStep + 1) 4 with hle | hlt
    · left
      exact min_eq_left hle
    · right
      have hm : min (s.currentStep + 1) 4 = 4 := min_eq_right (by omega)
      omega
  · rw [hprev]
    constructor
    · exact le_max_right _ _
    · exact max_le (by omega) (by omega)
  · rw [hprev]
    rcases le_or_lt 0 (s.currentStep - 1) with hle | hlt
    · left
      exact max_eq_left hle
    · right
      have hm : max (s.currentStep - 1) 0 = 0 := max_eq_right (by omega)
      omega
  · intro i
    by_cases hi : 0 ≤ i ∧ i < (WIZARD_STEPS.length : Int)
    · have hi5 : (WIZARD_STEPS.length : Int) = 5 := rfl
      simp only [goToStep, if_pos hi]
      constructor
      · exact hi.1
      · have := hi.2
        omega
    · simp only [goToStep, if_neg hi]
      exact ⟨h0, h4⟩

/-- Witness for C8 (amended): the bounds evaluated at a concrete state at
step 2, including an out-of-range `goToStep` target. -/
theorem currentStep_bounded_navigation_witness :
    (0 ≤ (nextStep (wizardAtStep 2)).currentStep ∧
      (nextStep (wizardAtStep 2)).currentStep ≤ 4) ∧
    (0 ≤ (goToStep (wizardAtStep 2) 9).currentStep ∧
      (goToStep (wizardAtStep 2) 9).currentStep ≤ 4) :=
  ⟨(currentStep_bounded_navigation (wizardAtStep 2) (by decide) (by decide)).1,
   (currentStep_bounded_navigation (wizardAtStep 2) (by decide)
      (by decide)).2.2.2.2 9⟩

/-- C9: the `processSheet` fail-fast guard fires iff the targeted
`fileId`/`sheetName` are found in the local file list with `etl_status`
exactly `loaded`; for any other status (including `loading`) or for an
absent file/sheet the remote process call is issued, even though
`canProcessSheet` returns true only for `not_loaded` or `failed`. -/
theorem processSheet_guard_vs_canProcessSheet (s : FileManagerState)
    (mon : MonitorState) (fid sn : String) (remote : Except String ETLJob) :
    ((processSheet s mon fid sn remote).networkCalls = 0 ↔
      ∃ sh, lookupSheet s fid sn = some sh ∧ sh.etl_status = "loaded") ∧
    (canProcessSheet s fid sn = true ↔
      getSheetEtlStatus s fid sn = "not_loaded" ∨
      getSheetEtlStatus s fid sn = "failed") ∧
    (∀ sh, lookupSheet s fid sn = some sh → sh.etl_status = "loading" →
      (processSheet s mon fid sn remote).networkCalls = 1 ∧
      canProcessSheet s fid sn = false) := by
  refine ⟨?_, ?_, ?_⟩
  · rw [processSheet_networkCalls, ← sheetIsLoaded_iff]
    by_cases hg : sheetIsLoaded s fid sn <;> simp [hg]
  · unfold canProcessSheet
    simp
  · intro sh hl hs
    have hg : sheetIsLoaded s fid sn = false := by
      unfold sheetIsLoaded
      rw [hl]
      show (sh.etl_status == "loaded") = false
      rw [hs]
      rfl
    have hst : getSheetEtlStatus s fid sn = "loading" := by
      unfold getSheetEtlStatus
      rw [hl]
      show (if sh.etl_status == "" then "not_loaded" else sh.etl_status) = "loading"
      rw [hs]
      rfl
    constructor
    · rw [processSheet_networkCalls, hg]
      rfl
    · unfold canProcessSheet
      rw [hst]
      rfl

/-- Witness for C9: a sheet currently in status `loading` still triggers
the network call although `canProcessSheet` forbids it. -/
theorem processSheet_guard_vs_canProcessSheet_witness :
    (processSheet (sampleFM "loading") monEmpty "f1" "Sheet1"
      (.error "boom")).networkCalls = 1 ∧
    canProcessSheet (sampleFM "loading") "f1" "Sheet1" = false :=
  (processSheet_guard_vs_canProcessSheet (sampleFM "loading") monEmpty
    "f1" "Sheet1" (.error "boom")).2.2 (sampleSheet "loading") rfl rfl

/-- C10: for every wizard state and every sheet name, `toggleSheet` flips
that name's membership in `selectedSheets` (removes it if present, appends
it if absent) and changes nothing else; applying it twice with the same
name yields a `selectedSheets` equal as a set to the original. -/
theorem toggleSheet_flips_membership (s : WizardState) (n : String) :
    (s.selectedSheets.contains n = true →
      (toggleSheet s n).selectedSheets
        = s.selectedSheets.filter (fun x => x != n)) ∧
    (s.selectedSheets.contains n = false →
      (toggleSheet s n).selectedSheets = s.selectedSheets ++ [n]) ∧
    (toggleSheet s n).selectedSheets.contains n
      = !(s.selectedSheets.contains n) ∧
    (∀ m, m ≠ n → (toggleSheet s n).selectedSheets.contains m
      = s.selectedSheets.contains m) ∧
    (∀ m, (toggleSheet (toggleSheet s n) n).selectedSheets.contains m
      = s.selectedSheets.contains m) ∧
    (toggleSheet s n).currentStep = s.currentStep ∧
    (toggleSheet s n).completedSteps = s.completedSteps ∧
    (toggleSheet s n).selectedCountry = s.selectedCountry ∧
    (toggleSheet s n).selectedFile = s.selectedFile ∧
    (toggleSheet s n).uploadedFile = s.uploadedFile ∧
    (toggleSheet s n).validationResults = s.validationResults ∧
    (toggleSheet s n).targetDate = s.targetDate ∧
    (toggleSheet s n).isLoading = s.isLoading ∧
    (toggleSheet s n).error = s.error := by
  refine ⟨?_, ?_, ?_, ?_, ?_, rfl, rfl, rfl, rfl, rfl, rfl, rfl, rfl, rfl⟩
  · intro h
    rw [toggleSheet_selectedSheets, toggleNames_of_mem _ _ h]
  · intro h
    rw [toggleSheet_selectedSheets, toggleNames_of_not_mem _ _ h]
  · rw [toggleSheet_selectedSheets]
    exact toggleNames_contains_self _ _
  · intro m hm
    rw [toggleSheet_selectedSheets]
    exact toggleNames_contains_other _ _ _ hm
  · intro m
    rw [toggleSheet_selectedSheets, toggleSheet_selectedSheets]
    exact toggleNames_twice _ _ _

/-- Witness for C10: toggling `A` out of `[A]` empties the selection;
toggling `B` twice leaves `A` selected. -/
theorem toggleSheet_flips_membership_witness :
    (toggleSheet { wizardAtStep 3 with selectedSheets := ["A"] }
      "A").selectedSheets = List.filter (fun x => x != "A") ["A"] ∧
    (toggleSheet (toggleSheet { wizardAtStep 3 with selectedSheets := ["A"] }
      "B") "B").selectedSheets.contains "A" = true := by
  constructor
  · exact (toggleSheet_flips_membership
      { wizardAtStep 3 with selectedSheets := ["A"] } "A").1 rfl
  · rw [(toggleSheet_flips_membership
      { wizardAtStep 3 with selectedSheets := ["A"] } "B").2.2.2.2.1 "A"]
    rfl
